import Mathlib

/-!
Verification of the two brace-counting debug scripts
`debug_braces.py` (variant A) and `debug_braces_full.py` (variant B).

A file is modelled as a list of lines, each line a list of characters
(as produced by `readlines()`, so a line may end with a newline
character).  Both scripts scan the lines in order, keeping a running
brace counter that is incremented on each opening brace and
decremented on each closing brace.
-/

/-- The opening-brace character. -/
def openBrace : Char := Char.ofNat 123

/-- The closing-brace character. -/
def closeBrace : Char := Char.ofNat 125

/-- Effect of a single character on the brace counter: +1 for an
opening brace, -1 for a closing brace, 0 otherwise. -/
def charDelta (c : Char) : Int :=
  if c = openBrace then 1 else if c = closeBrace then -1 else 0

/-- Net brace delta of one line: the sum of the per-character deltas. -/
def lineDelta (line : List Char) : Int :=
  (line.map charDelta).sum

/-- Inner character loop shared by both scripts
(`debug_braces.py` lines 11-17, `debug_braces_full.py` lines 13-17),
projected onto the brace counter: starting from `bc`, add 1 per
opening brace and subtract 1 per closing brace. -/
def lineCount (bc : Int) (line : List Char) : Int :=
  line.foldl
    (fun a c => if c = openBrace then a + 1 else if c = closeBrace then a - 1 else a)
    bc

/-- Inner character loop of variant A (`debug_braces.py` lines 11-17),
updating the pair `(brace_count, line_brace_change)`. -/
def scanLineA (p : Int × Int) (line : List Char) : Int × Int :=
  line.foldl
    (fun q c =>
      if c = openBrace then (q.1 + 1, q.2 + 1)
      else if c = closeBrace then (q.1 - 1, q.2 - 1)
      else q)
    p

/-- Python `str.strip`: drop leading and trailing whitespace. -/
def stripLine (l : List Char) : List Char :=
  ((l.dropWhile Char.isWhitespace).reverse.dropWhile Char.isWhitespace).reverse

/-- A change record of variant A (`debug_braces.py` line 20): the
1-based line number, the net delta of the line, the counter after the
line, and the stripped line text. -/
structure ChangeRecord where
  lineNum : Nat
  change : Int
  total : Int
  content : List Char
deriving Repr, DecidableEq

/-- One iteration of variant A's main loop (`debug_braces.py`
lines 9-20) acting on the state `(brace_count, line_braces)`; the
second input component is the 1-based line number. -/
def stepA (st : Int × List ChangeRecord) (il : Nat × List Char) :
    Int × List ChangeRecord :=
  let r := scanLineA (st.1, 0) il.2
  if r.2 ≠ 0 then (r.1, st.2 ++ [⟨il.1, r.2, r.1, stripLine il.2⟩])
  else (r.1, st.2)

/-- The full scan of variant A (`debug_braces.py` lines 6-20): fold the
per-line step over all lines, numbered from 1, starting from counter 0
and an empty record list. -/
def scanA (lines : List (List Char)) : Int × List ChangeRecord :=
  (List.enumFrom 1 lines).foldl stepA (0, [])

/-- Truncation applied when a record is printed
(`debug_braces.py` line 25): the content is cut to 80 characters. -/
def printEntryA (r : ChangeRecord) : ChangeRecord :=
  { r with content := r.content.take 80 }

/-- The printing loop of variant A (`debug_braces.py` lines 23-28):
print each record whose line number is at least 1200, and stop after
handling a record whose line number is at least 1280. -/
def printA : List ChangeRecord → List ChangeRecord
  | [] => []
  | r :: rest =>
    let out := if 1200 ≤ r.lineNum then [printEntryA r] else []
    if 1280 ≤ r.lineNum then out else out ++ printA rest

/-- Observable output of variant A: the printed records and the value
reported by the final message (`debug_braces.py` line 30). -/
structure OutputA where
  printed : List ChangeRecord
  finalMsg : Int
deriving Repr, DecidableEq

/-- The whole of variant A after the file has been read: scan every
line, then print the windowed records and the final counter. -/
def outputA (lines : List (List Char)) : OutputA :=
  ⟨printA (scanA lines).2, (scanA lines).1⟩

/-- The characters of the function-definition keyword searched for by
variant B (`debug_braces_full.py` lines 26 and 28). -/
def funcKeyword : List Char := ['f', 'u', 'n', 'c', ' ']

/-- Python substring test `pat in l` on character lists. -/
def containsSub (pat : List Char) : List Char → Bool
  | [] => pat.isEmpty
  | c :: rest => pat.isPrefixOf (c :: rest) || containsSub pat rest

/-- The suspicious annotation a printed line of variant B may carry
(`debug_braces_full.py` lines 25-29). -/
inductive Suspicion where
  | clean
  | funcWrongLevel
  | belowClassLevel
deriving Repr, DecidableEq

/-- The expected nesting level inside the scanned class
(`debug_braces_full.py` line 7). -/
def expected_class_level : Int := 1

/-- The heuristic of variant B (`debug_braces_full.py` lines 24-29):
given the counter after the line, the line's delta and the raw line,
choose the suspicious annotation. -/
def suspicionFor (braceCount change : Int) (line : List Char) : Suspicion :=
  if expected_class_level + 1 < braceCount ∧ containsSub funcKeyword line = true ∧ 0 < change then
    Suspicion.funcWrongLevel
  else if braceCount < expected_class_level ∧ ¬ containsSub funcKeyword line = true then
    Suspicion.belowClassLevel
  else Suspicion.clean

/-- A line printed by variant B (`debug_braces_full.py` line 31):
line number, delta, counter after the line, stripped text truncated to
80 characters, and the suspicious annotation. -/
structure BRecord where
  lineNum : Nat
  change : Int
  total : Int
  content : List Char
  susp : Suspicion
deriving Repr, DecidableEq

/-- The main loop of variant B (`debug_braces_full.py` lines 10-35)
starting at counter `bc` and 1-based line number `i`.  Returns the
final counter, the printed records, and the number of lines processed.
A line whose delta is nonzero is printed, and if its number exceeds
1300 the loop breaks; a line with zero delta never triggers the
cutoff check. -/
def scanBGo : Int → Nat → List (List Char) → Int × List BRecord × Nat
  | bc, _, [] => (bc, [], 0)
  | bc, i, line :: rest =>
    let bc' := lineCount bc line
    if bc ≠ bc' then
      let r : BRecord :=
        ⟨i, bc' - bc, bc', (stripLine line).take 80, suspicionFor bc' (bc' - bc) line⟩
      if 1300 < i then (bc', [r], 1)
      else
        let t := scanBGo bc' (i + 1) rest
        (t.1, r :: t.2.1, t.2.2 + 1)
    else
      let t := scanBGo bc' (i + 1) rest
      (t.1, t.2.1, t.2.2 + 1)

/-- The full scan of variant B: counter 0, line numbers from 1. -/
def scanB (lines : List (List Char)) : Int × List BRecord × Nat :=
  scanBGo 0 1 lines

/-- Final brace counter of variant B, as reported by its last message
(`debug_braces_full.py` line 37). -/
def finalB (lines : List (List Char)) : Int :=
  (scanB lines).1

/-- The records printed by variant B during its scan. -/
def recordsB (lines : List (List Char)) : List BRecord :=
  (scanB lines).2.1

/-- Number of lines variant B processes before its loop ends. -/
def consumedB (lines : List (List Char)) : Nat :=
  (scanB lines).2.2

/-- Observable output of variant B: the streamed records and the
counter in the final analysis message. -/
structure OutputB where
  printed : List BRecord
  finalMsg : Int
deriving Repr, DecidableEq

/-- The whole of variant B after the file has been read. -/
def outputB (lines : List (List Char)) : OutputB :=
  ⟨recordsB lines, finalB lines⟩

/-- Reading the hardcoded input file, modelled as fallible: `none`
when the file is missing or unreadable.  Variant A fails before any
scan state exists when the read fails (`debug_braces.py` lines 3-4). -/
def runA : Option (List (List Char)) → Except Unit OutputA
  | none => Except.error ()
  | some lines => Except.ok (outputA lines)

/-- Variant B under the same fallible-read model
(`debug_braces_full.py` lines 3-4). -/
def runB : Option (List (List Char)) → Except Unit OutputB
  | none => Except.error ()
  | some lines => Except.ok (outputB lines)

/-- Number of occurrences of the character `c` in the whole file. -/
def countChar (c : Char) (lines : List (List Char)) : Nat :=
  (lines.map (fun l => l.count c)).sum

/-- Number of opening braces minus number of closing braces in the
whole file, the quantity the specification speaks about. -/
def braceDiff (lines : List (List Char)) : Int :=
  (countChar openBrace lines : Int) - (countChar closeBrace lines : Int)

/-- Sum of the per-line deltas of a file. -/
def sumDelta (lines : List (List Char)) : Int :=
  (lines.map lineDelta).sum

/-- Prefix of a list up to and including the first element satisfying
`p` (the whole list when no element does). -/
def takeThrough (p : α → Bool) : List α → List α
  | [] => []
  | a :: l => if p a then [a] else a :: takeThrough p l

/-- Specification-side description of variant A's printing loop: keep
the records up to and including the first one with line number at
least 1280, print those with line number at least 1200, truncated. -/
def printSpecA (recs : List ChangeRecord) : List ChangeRecord :=
  ((takeThrough (fun r => 1280 ≤ r.lineNum) recs).filter
      (fun r => 1200 ≤ r.lineNum)).map printEntryA

/-- Specification-side count of the lines variant B processes: all
lines up to and including the first one with nonzero delta and line
number above 1300. -/
def consumedSpec (i : Nat) : List (List Char) → Nat
  | [] => 0
  | line :: rest =>
    if lineDelta line ≠ 0 ∧ 1300 < i then 1 else 1 + consumedSpec (i + 1) rest

/-- Sequence of cumulative counter values after each line of the file. -/
def counterTrace (lines : List (List Char)) : List Int :=
  (lines.foldl
      (fun (p : Int × List Int) line =>
        let bc := lineCount p.1 line
        (bc, p.2 ++ [bc]))
      ((0 : Int), ([] : List Int))).2

/-- The newline character terminating lines read by `readlines`. -/
def newlineChar : Char := Char.ofNat 10

/-- A 1302-line file: 1300 brace-free lines, then an opening-brace
line and a closing-brace line. -/
def cutFile : List (List Char) :=
  List.replicate 1300 ['x'] ++ [[openBrace], [closeBrace]]

/-- A 1281-line file: 1280 brace-free lines, then an opening-brace
line. -/
def lateFile : List (List Char) :=
  List.replicate 1280 ['x'] ++ [[openBrace]]

theorem openBrace_ne_closeBrace : openBrace ≠ closeBrace := by decide

/-- The counter loop shared by both scripts adds the line's delta. -/
theorem lineCount_eq : ∀ (line : List Char) (bc : Int),
    lineCount bc line = bc + lineDelta line
  | [], bc => by simp [lineCount, lineDelta]
  | c :: cs, bc => by
    have ih := lineCount_eq cs
    simp only [lineCount] at ih ⊢
    simp only [List.foldl_cons]
    rw [ih]
    simp only [lineDelta, List.map_cons, List.sum_cons, charDelta]
    split_ifs <;> ring

/-- The per-line delta is the line's open-brace count minus its
close-brace count. -/
theorem lineDelta_eq_counts : ∀ line : List Char,
    lineDelta line = (line.count openBrace : Int) - (line.count closeBrace : Int)
  | [] => by simp [lineDelta]
  | c :: cs => by
    have ih := lineDelta_eq_counts cs
    simp only [lineDelta, List.map_cons, List.sum_cons] at ih ⊢
    rw [ih, List.count_cons, List.count_cons]
    by_cases h1 : c = openBrace
    · subst h1
      have hd : charDelta openBrace = 1 := by decide
      simp only [hd, beq_iff_eq, openBrace_ne_closeBrace, if_true, if_false,
        Ne.symm openBrace_ne_closeBrace]
      simp
      ring
    · by_cases h2 : c = closeBrace
      · subst h2
        have hd : charDelta closeBrace = -1 := by decide
        simp only [hd, beq_iff_eq, if_true, if_false]
        simp [Ne.symm openBrace_ne_closeBrace]
        ring
      · have hd : charDelta c = 0 := by simp [charDelta, h1, h2]
        simp only [hd, beq_iff_eq, h1, h2, if_false]
        simp [h1, h2]

/-- Summed per-line deltas equal the whole-file brace difference. -/
theorem sumDelta_eq_braceDiff : ∀ lines : List (List Char),
    sumDelta lines = braceDiff lines
  | [] => by simp [sumDelta, braceDiff, countChar]
  | l :: ls => by
    have ih := sumDelta_eq_braceDiff ls
    simp only [sumDelta, braceDiff, countChar, List.map_cons, List.sum_cons] at ih ⊢
    rw [lineDelta_eq_counts l]
    push_cast at ih ⊢
    omega

/-- The character loop of variant A adds the line's delta to both the
running counter and the per-line change. -/
theorem scanLineA_eq : ∀ (line : List Char) (p : Int × Int),
    scanLineA p line = (p.1 + lineDelta line, p.2 + lineDelta line)
  | [], p => by simp [scanLineA, lineDelta]
  | c :: cs, p => by
    have ih := scanLineA_eq cs
    simp only [scanLineA] at ih ⊢
    simp only [List.foldl_cons]
    rw [ih]
    simp only [lineDelta, List.map_cons, List.sum_cons, charDelta]
    split_ifs <;> simp only [Prod.mk.injEq] <;> exact ⟨by ring, by ring⟩

/-- One step of variant A's loop always adds the line's delta to the
counter, whether or not a record is appended. -/
theorem stepA_fst (st : Int × List ChangeRecord) (i : Nat) (line : List Char) :
    (stepA st (i, line)).1 = st.1 + lineDelta line := by
  simp only [stepA, scanLineA_eq]
  split_ifs <;> rfl

/-- The counter component of variant A's fold over any suffix adds the
summed delta of that suffix. -/
theorem scanA_foldl_fst : ∀ (ls : List (List Char)) (n : Nat) (st : Int × List ChangeRecord),
    ((List.enumFrom n ls).foldl stepA st).1 = st.1 + sumDelta ls
  | [], n, st => by simp [sumDelta]
  | l :: ls, n, st => by
    have ih := scanA_foldl_fst ls (n + 1)
    simp only [List.enumFrom, List.foldl_cons]
    rw [ih]
    rcases st with ⟨bc, recs⟩
    rw [stepA_fst ⟨bc, recs⟩ n l]
    simp only [sumDelta, List.map_cons, List.sum_cons]
    ring

/-- Variant A's final counter is the whole-file brace difference. -/
theorem scanA_fst (lines : List (List Char)) :
    (scanA lines).1 = braceDiff lines := by
  rw [scanA, scanA_foldl_fst lines 1 (0, [])]
  rw [← sumDelta_eq_braceDiff]
  ring

/-- Variant B consumes exactly the lines described by `consumedSpec`. -/
theorem scanBGo_consumed : ∀ (ls : List (List Char)) (bc : Int) (i : Nat),
    (scanBGo bc i ls).2.2 = consumedSpec i ls
  | [], bc, i => by simp [scanBGo, consumedSpec]
  | line :: rest, bc, i => by
    have ih := scanBGo_consumed rest
    have hlc : lineCount bc line = bc + lineDelta line := lineCount_eq line bc
    simp only [scanBGo, consumedSpec, hlc]
    by_cases hd : lineDelta line = 0
    · have hne : ¬ bc ≠ bc + lineDelta line := by omega
      simp [hne, hd, ih]
      omega
    · have hne : bc ≠ bc + lineDelta line := by omega
      by_cases hi : 1300 < i
      · simp [hne, hd, hi]
      · simp [hne, hd, hi, ih]
        omega

/-- Variant B's final counter is the initial counter plus the summed
delta of the consumed prefix. -/
theorem scanBGo_fst : ∀ (ls : List (List Char)) (bc : Int) (i : Nat),
    (scanBGo bc i ls).1 = bc + sumDelta (ls.take ((scanBGo bc i ls).2.2))
  | [], bc, i => by simp [scanBGo, sumDelta]
  | line :: rest, bc, i => by
    have ih := scanBGo_fst rest
    have hlc : lineCount bc line = bc + lineDelta line := lineCount_eq line bc
    simp only [scanBGo, hlc]
    by_cases hd : lineDelta line = 0
    · have hne : ¬ bc ≠ bc + lineDelta line := by omega
      rw [if_neg hne]
      simp only [List.take_succ_cons, sumDelta, List.map_cons, List.sum_cons]
      rw [hd]
      simp only [add_zero, zero_add]
      simpa [sumDelta] using ih bc (i + 1)
    · have hne : bc ≠ bc + lineDelta line := by omega
      by_cases hi : 1300 < i
      · simp [hne, hi, sumDelta]
      · simp only [if_pos hne, if_neg hi]
        simp only [List.take_succ_cons, sumDelta, List.map_cons, List.sum_cons]
        rw [ih (bc + lineDelta line) (i + 1)]
        simp only [sumDelta]
        omega

/-- The printing loop of variant A prints exactly the records of the
windowed description. -/
theorem printA_eq_printSpecA : ∀ recs : List ChangeRecord, printA recs = printSpecA recs
  | [] => by simp [printA, printSpecA, takeThrough]
  | r :: rest => by
    have ih := printA_eq_printSpecA rest
    by_cases h80 : 1280 ≤ r.lineNum
    · have h00 : 1200 ≤ r.lineNum := by omega
      simp [printA, printSpecA, takeThrough, h80, h00]
    · by_cases h00 : 1200 ≤ r.lineNum
      · simp [printA, printSpecA, takeThrough, h80, h00] at ih ⊢
        exact ih
      · simp [printA, printSpecA, takeThrough, h80, h00] at ih ⊢
        exact ih


/-- The single-character line used as brace-free filler. -/
theorem lineDelta_x : lineDelta ['x'] = 0 := by decide

/-- A line whose characters are all brace-free has delta zero. -/
theorem lineDelta_of_no_brace : ∀ line : List Char,
    (∀ c ∈ line, c ≠ openBrace ∧ c ≠ closeBrace) → lineDelta line = 0
  | [], _ => by simp [lineDelta]
  | c :: cs, h => by
    have ih := lineDelta_of_no_brace cs fun d hd => h d (List.mem_cons_of_mem c hd)
    have hc := h c (List.mem_cons_self c cs)
    simp only [lineDelta, List.map_cons, List.sum_cons] at ih ⊢
    rw [ih]
    simp [charDelta, hc.1, hc.2]

/-- A zero-delta line leaves variant A's whole state unchanged. -/
theorem stepA_noop (st : Int × List ChangeRecord) (i : Nat) (line : List Char)
    (h : lineDelta line = 0) : stepA st (i, line) = st := by
  simp [stepA, scanLineA_eq, h]

/-- A zero-delta line only advances variant B's loop. -/
theorem scanBGo_noop (bc : Int) (i : Nat) (line : List Char) (rest : List (List Char))
    (h : lineDelta line = 0) :
    scanBGo bc i (line :: rest) =
      ((scanBGo bc (i + 1) rest).1, (scanBGo bc (i + 1) rest).2.1,
        (scanBGo bc (i + 1) rest).2.2 + 1) := by
  have hlc : lineCount bc line = bc := by rw [lineCount_eq, h, add_zero]
  simp [scanBGo, hlc]

/-- Variant A's fold skips a block of brace-free filler lines. -/
theorem scanA_skip : ∀ (k n : Nat) (st : Int × List ChangeRecord) (tail : List (List Char)),
    (List.enumFrom n (List.replicate k ['x'] ++ tail)).foldl stepA st
      = (List.enumFrom (n + k) tail).foldl stepA st
  | 0, n, st, tail => by simp
  | k + 1, n, st, tail => by
    have ih := scanA_skip k (n + 1) st tail
    simp only [List.replicate_succ, List.cons_append, List.enumFrom, List.foldl_cons,
      List.append_eq]
    rw [stepA_noop st n ['x'] lineDelta_x, ih]
    have hnk : n + 1 + k = n + (k + 1) := by omega
    rw [hnk]

/-- Variant B's loop skips a block of brace-free filler lines,
advancing the counter of processed lines. -/
theorem scanBGo_skip : ∀ (k n : Nat) (bc : Int) (tail : List (List Char)),
    scanBGo bc n (List.replicate k ['x'] ++ tail) =
      ((scanBGo bc (n + k) tail).1, (scanBGo bc (n + k) tail).2.1,
        (scanBGo bc (n + k) tail).2.2 + k)
  | 0, n, bc, tail => by simp
  | k + 1, n, bc, tail => by
    have ih := scanBGo_skip k (n + 1) bc tail
    simp only [List.replicate_succ, List.cons_append]
    rw [scanBGo_noop bc n ['x'] _ lineDelta_x, ih]
    have hnk : n + 1 + k = n + (k + 1) := by omega
    rw [hnk]
    simp only [Prod.mk.injEq]
    refine ⟨by simp, by simp, ?_⟩
    omega

/-- Brace-free filler lines contribute nothing to the summed delta. -/
theorem sumDelta_skip : ∀ (k : Nat) (tail : List (List Char)),
    sumDelta (List.replicate k ['x'] ++ tail) = sumDelta tail
  | 0, tail => by simp
  | k + 1, tail => by
    have ih := sumDelta_skip k tail
    simp only [List.replicate_succ, List.cons_append, sumDelta, List.map_cons,
      List.sum_cons] at ih ⊢
    rw [ih, lineDelta_x, zero_add]

/-- Evaluation of variant B's loop on the two-line tail of `cutFile`
starting at line number 1301. -/
theorem scanBGo_cutTail :
    scanBGo 0 1301 [[openBrace], [closeBrace]] =
      (1, [⟨1301, 1, 1, [openBrace], Suspicion.clean⟩], 1) := by decide

/-- Variant B stops on `cutFile` at line 1301. -/
theorem consumedB_cutFile : consumedB cutFile = 1301 := by
  rw [consumedB, scanB, cutFile, scanBGo_skip,
    show (1 : Nat) + 1300 = 1301 from by norm_num, scanBGo_cutTail]

/-- Variant B's final counter on `cutFile` is 1. -/
theorem finalB_cutFile : finalB cutFile = 1 := by
  rw [finalB, scanB, cutFile, scanBGo_skip,
    show (1 : Nat) + 1300 = 1301 from by norm_num, scanBGo_cutTail]

/-- The whole-file brace difference of `cutFile` is 0. -/
theorem braceDiff_cutFile : braceDiff cutFile = 0 := by
  rw [cutFile, ← sumDelta_eq_braceDiff, sumDelta_skip]
  decide

/-- Variant A's final counter on `lateFile` is 1. -/
theorem scanA_lateFile : (scanA lateFile).1 = 1 := by
  rw [scanA_fst, lateFile, ← sumDelta_eq_braceDiff, sumDelta_skip]
  decide

/-- The brace difference of the first 1280 lines of `lateFile` is 0. -/
theorem braceDiff_lateFile_take : braceDiff (lateFile.take 1280) = 0 := by
  have h : (List.replicate 1280 (['x'] : List Char)).length = 1280 :=
    List.length_replicate 1280 ['x']
  rw [lateFile, List.take_left' h]
  have h2 : List.replicate 1280 (['x'] : List Char)
      = List.replicate 1280 ['x'] ++ ([] : List (List Char)) :=
    (List.append_nil _).symm
  rw [h2, ← sumDelta_eq_braceDiff, sumDelta_skip]
  decide

/-- If variant B is still running when it reaches a line with nonzero
delta and number above 1300, that line is the last one it processes. -/
theorem consumedSpec_fire : ∀ (pre : List (List Char)) (i : Nat) (l : List Char)
    (post : List (List Char)),
    1300 < i + pre.length → lineDelta l ≠ 0 →
    pre.length < consumedSpec i (pre ++ l :: post) →
    consumedSpec i (pre ++ l :: post) = pre.length + 1
  | [], i, l, post, hgt, hd, _ => by
    have hi : 1300 < i := by simpa using hgt
    simp only [List.nil_append, consumedSpec, List.length_nil]
    rw [if_pos ⟨hd, hi⟩]
  | p :: pre', i, l, post, hgt, hd, hlt => by
    have hgt' : 1300 < (i + 1) + pre'.length := by
      simp only [List.length_cons] at hgt
      omega
    have ih := consumedSpec_fire pre' (i + 1) l post hgt' hd
    simp only [List.cons_append, consumedSpec, List.length_cons, List.append_eq] at hlt ih ⊢
    by_cases hp : lineDelta p ≠ 0 ∧ 1300 < i
    · rw [if_pos hp] at hlt
      omega
    · rw [if_neg hp] at hlt ⊢
      have h2 := ih (by omega)
      omega

/-- Variant B's final counter covers exactly the consumed prefix. -/
theorem finalB_take (lines : List (List Char)) :
    finalB lines = braceDiff (lines.take (consumedB lines)) := by
  rw [finalB, consumedB, scanB, ← sumDelta_eq_braceDiff]
  have h := scanBGo_fst lines 0 1
  simpa using h

/-- Claim C1, counterexample: on the 1302-line file `cutFile` the
whole file has as many opening as closing braces, yet variant B's
final counter is 1, because its scan breaks at line 1301 before the
closing brace on line 1302 is seen. -/
theorem c1_final_equals_diff_counterexample :
    finalB cutFile = 1 ∧ braceDiff cutFile = 0 ∧ finalB cutFile ≠ braceDiff cutFile := by
  refine ⟨finalB_cutFile, braceDiff_cutFile, ?_⟩
  rw [finalB_cutFile, braceDiff_cutFile]
  decide

/-- Claim C1, amended: variant A's final counter equals the number of
opening braces minus the number of closing braces of the whole file
(so 0 for a balanced file and N for a file with N surplus opening
braces); variant B's final counter equals that difference over the
prefix of lines its scan actually processes, which is the whole file
only when no counter-changing line occurs after line 1300. -/
theorem c1_final_equals_diff (lines : List (List Char)) :
    (scanA lines).1 = braceDiff lines ∧
      finalB lines = braceDiff (lines.take (consumedB lines)) :=
  ⟨scanA_fst lines, finalB_take lines⟩

/-- Claim C2: if variant B processes a line whose number exceeds 1300
and whose delta is nonzero, so that the cutoff check fires there, that
line is the last one the scan processes. -/
theorem c2_cutoff (lines pre : List (List Char)) (l : List Char)
    (post : List (List Char)) (hsplit : lines = pre ++ l :: post)
    (hgt : 1300 < pre.length + 1) (hd : lineDelta l ≠ 0)
    (hproc : pre.length + 1 ≤ consumedB lines) :
    consumedB lines = pre.length + 1 := by
  subst hsplit
  have hcs : consumedB (pre ++ l :: post) = consumedSpec 1 (pre ++ l :: post) := by
    rw [consumedB, scanB, scanBGo_consumed]
  rw [hcs] at hproc ⊢
  exact consumedSpec_fire pre 1 l post (by omega) hd (by omega)

/-- Claim C2, witness: on `cutFile` the check fires at line 1301 and
the scan consumes exactly 1301 lines. -/
theorem c2_cutoff_witness : consumedB cutFile = 1301 := by
  have h := c2_cutoff cutFile (List.replicate 1300 ['x']) [openBrace] [[closeBrace]]
    rfl (by rw [List.length_replicate]; norm_num) (by decide)
    (by rw [consumedB_cutFile, List.length_replicate])
  rw [h, List.length_replicate]

/-- Claim C3: variant A scans the whole file collecting the
nonzero-delta records, and afterwards prints exactly the collected
records with line number at least 1200, stopping at the first record
with line number at least 1280, followed by the final counter of the
whole scan. -/
theorem c3_windowed_printing (lines : List (List Char)) :
    outputA lines = ⟨printSpecA (scanA lines).2, (scanA lines).1⟩ := by
  rw [outputA, printA_eq_printSpecA]

/-- Claim C4: variant B marks a printed line as suspicious exactly
when the counter exceeds the expected function entry level on a line
containing the `func ` keyword with positive delta, or drops below the
expected class level on a line without that keyword. -/
theorem c4_suspicious_iff (braceCount change : Int) (line : List Char) :
    suspicionFor braceCount change line ≠ Suspicion.clean ↔
      ((expected_class_level + 1 < braceCount ∧ containsSub funcKeyword line = true ∧
          0 < change) ∨
        (braceCount < expected_class_level ∧ containsSub funcKeyword line = false)) := by
  rw [suspicionFor]
  split_ifs with h1 h2
  · constructor
    · intro _
      exact Or.inl h1
    · intro _
      decide
  · constructor
    · intro _
      right
      exact ⟨h2.1, by simpa using h2.2⟩
    · intro _
      decide
  · constructor
    · intro hcl
      exact absurd rfl hcl
    · intro hor
      rcases hor with h | h
      · exact absurd h h1
      · exact absurd ⟨h.1, by simp [h.2]⟩ h2

/-- Claim C5: after processing any prefix of the file the counter
equals the open-brace count minus the close-brace count of that
prefix, in variant A for every prefix and in variant B for the
consumed prefix; the shared character loop adds one per opening brace,
subtracts one per closing brace and ignores every other character. -/
theorem c5_counter_invariant :
    (∀ (lines : List (List Char)) (i : Nat),
        (scanA (lines.take i)).1 = braceDiff (lines.take i)) ∧
      (∀ lines : List (List Char),
        finalB lines = braceDiff (lines.take (consumedB lines))) ∧
      (∀ (bc : Int) (line : List Char), lineCount bc line = bc + lineDelta line) ∧
      (∀ line : List Char,
        lineDelta line = (line.count openBrace : Int) - (line.count closeBrace : Int)) ∧
      charDelta openBrace = 1 ∧ charDelta closeBrace = -1 ∧
      (∀ c : Char, c ≠ openBrace → c ≠ closeBrace → charDelta c = 0) := by
  refine ⟨fun lines i => scanA_fst (lines.take i), finalB_take,
    fun bc line => lineCount_eq line bc, lineDelta_eq_counts, by decide, by decide, ?_⟩
  intro c h1 h2
  simp [charDelta, h1, h2]

/-- Claim C5, witness: the invariant evaluated on a one-line file and
a concrete brace-free character. -/
theorem c5_counter_invariant_witness :
    (scanA (List.take 1 [[openBrace]])).1 = braceDiff (List.take 1 [[openBrace]]) ∧
      charDelta 'a' = 0 :=
  ⟨c5_counter_invariant.1 [[openBrace]] 1,
    c5_counter_invariant.2.2.2.2.2.2 'a' (by decide) (by decide)⟩

/-- Claim C6: variant A's final message reports the counter over the
entire file; on `lateFile` it reports 1 although the counter as of
line 1280 is 0, so the ≥ 1280 break cuts only the printing loop while
the scan covers every line. -/
theorem c6_final_reports_whole_file :
    (∀ lines : List (List Char), (outputA lines).finalMsg = braceDiff lines) ∧
      (outputA lateFile).finalMsg = 1 ∧ braceDiff (lateFile.take 1280) = 0 := by
  have hm : ∀ ls : List (List Char), (outputA ls).finalMsg = (scanA ls).1 :=
    fun ls => rfl
  refine ⟨fun lines => ?_, ?_, braceDiff_lateFile_take⟩
  · rw [hm]
    exact scanA_fst lines
  · rw [hm]
    exact scanA_lateFile

/-- Claim C7: on the two-line input of one opening brace then one
closing brace, the per-line counter trace is [1, 0] and both variants
report a final counter of 0. -/
theorem c7_brace_pair :
    counterTrace [[openBrace, newlineChar], [closeBrace, newlineChar]] = [1, 0] ∧
      (scanA [[openBrace, newlineChar], [closeBrace, newlineChar]]).1 = 0 ∧
      finalB [[openBrace, newlineChar], [closeBrace, newlineChar]] = 0 := by
  decide

/-- Claim C8: on the single line holding two opening braces, variant A
collects exactly one change record, with delta +2 and cumulative
counter 2, and variant B prints exactly one matching record. -/
theorem c8_double_open :
    (scanA [[openBrace, openBrace, newlineChar]]).2 =
        [⟨1, 2, 2, [openBrace, openBrace]⟩] ∧
      recordsB [[openBrace, openBrace, newlineChar]] =
        [⟨1, 2, 2, [openBrace, openBrace], Suspicion.clean⟩] := by
  decide

/-- Claim C9: a line containing neither opening nor closing braces
adds no change record and leaves the counter unchanged: it leaves
variant A's whole state untouched and only advances variant B's loop. -/
theorem c9_no_brace_line :
    (∀ (st : Int × List ChangeRecord) (i : Nat) (line : List Char),
        (∀ c ∈ line, c ≠ openBrace ∧ c ≠ closeBrace) → stepA st (i, line) = st) ∧
      (∀ (bc : Int) (i : Nat) (line : List Char) (rest : List (List Char)),
        (∀ c ∈ line, c ≠ openBrace ∧ c ≠ closeBrace) →
          scanBGo bc i (line :: rest) =
            ((scanBGo bc (i + 1) rest).1, (scanBGo bc (i + 1) rest).2.1,
              (scanBGo bc (i + 1) rest).2.2 + 1)) := by
  constructor
  · intro st i line h
    exact stepA_noop st i line (lineDelta_of_no_brace line h)
  · intro bc i line rest h
    exact scanBGo_noop bc i line rest (lineDelta_of_no_brace line h)

/-- Claim C9, witness on concrete brace-free lines. -/
theorem c9_no_brace_line_witness :
    stepA ((5 : Int), ([] : List ChangeRecord)) (3, ['a', 'b'])
        = ((5 : Int), ([] : List ChangeRecord)) ∧
      scanBGo 2 7 [['y']] = ((2 : Int), ([] : List BRecord), 1) := by
  constructor
  · exact c9_no_brace_line.1 (5, []) 3 ['a', 'b'] (by decide)
  · rw [c9_no_brace_line.2 2 7 ['y'] [] (by decide)]
    rfl

/-- Claim C10: under the fallible-read model of the hardcoded `open`,
each script fails exactly when the file cannot be read — producing no
scan state and no output — and succeeds on every readable file; no
other error source exists in the embedded programs. -/
theorem c10_read_only_error (fr : Option (List (List Char))) :
    ((runA fr = Except.error ()) ↔ fr = none) ∧
      ((runB fr = Except.error ()) ↔ fr = none) := by
  rcases fr with _ | lines <;> simp [runA, runB]
